import Mathlib

/-!
Verification of the multi-tenant federated database access layer of the
fixxit.ai-openwebui repository.

The development shallowly embeds the relevant source code:

* `backend/open_webui/utils/postgres_connection.py` — the credential vault
  (`encrypt_password` / `decrypt_password`), the psql connection-string
  parser (`parse_psql_connection_string`) and the connection registry
  (`get_connection_pool`);
* `backend/open_webui/routers/logs.py` — the federated query endpoint
  `get_logs` (tenant resolution, per-tenant SQL construction, fan-out with
  per-tenant failure isolation, merge sort, pagination);
* `backend/open_webui/routers/groups.py` — the configuration read-back
  endpoint `get_group_database_config` (password redaction).

Modelling conventions: machine integers are `Nat`/`Int`; Python exceptions
become `Except`; Python dicts become association lists; the Fernet engine
is modelled as an abstract authenticated symmetric scheme; awaited network
calls (connection acquisition, query execution) are supplied by an
environment record so that per-tenant success and failure are explicit.
-/

namespace FedLogs

/-! ### Credential vault (postgres_connection.py, lines 75-89)

`cryptography.fernet.Fernet` is modelled abstractly: a ciphertext is either
the empty-string sentinel produced by `encrypt_password("")` or a token
recording the encrypting key and the plaintext.  Decrypting a token with a
key other than the one that produced it fails, which models
`InvalidToken` raised by Fernet on a key mismatch or corrupted data. -/

inductive Ciphertext where
  | empty : Ciphertext
  | token (key : Nat) (plain : String) : Ciphertext
deriving DecidableEq

/-- `encrypt_password` (postgres_connection.py line 75): the Python guard
`if not password: return ""` maps the empty string to the empty sentinel;
otherwise the Fernet engine encrypts under the process-wide key. -/
def encrypt_password (key : Nat) (password : String) : Ciphertext :=
  if password = "" then Ciphertext.empty
  else Ciphertext.token key password

/-- `decrypt_password` (postgres_connection.py line 81): the empty sentinel
decrypts to the empty string without touching the engine; a token decrypts
to its plaintext under the producing key and otherwise raises
`ValueError("Failed to decrypt database password")`. -/
def decrypt_password (key : Nat) (encrypted_password : Ciphertext) :
    Except String String :=
  match encrypted_password with
  | Ciphertext.empty => Except.ok ""
  | Ciphertext.token k plain =>
      if k = key then Except.ok plain
      else Except.error "Failed to decrypt database password"

/-! ### Connection-string parser (postgres_connection.py, lines 42-73)

The source applies `re.search` with the pattern
`psql\s+-h\s+(\S+)\s+-p\s+(\d+)\s+-d\s+(\S+)\s+-U\s+(\S+)` to the stripped
input and raises `ValueError` when there is no match.  The pattern is a
sequence of literals, `\s+` gaps and greedy captured character-class `+`
quantifiers; the matcher below implements exactly that token sequence with
leftmost search and greedy backtracking, which is the Python semantics for
this pattern. -/

/-- Python `\s` restricted to the ASCII whitespace characters. -/
def isPySpace (c : Char) : Bool :=
  c == ' ' || c == '\t' || c == '\n' || c == '\r' || c == '\x0b' || c == '\x0c'

/-- Python `\d` restricted to ASCII digits. -/
def isPyDigit (c : Char) : Bool :=
  '0' ≤ c && c ≤ '9'

/-- One token of the regular expression: a literal, an uncaptured `\s+`
gap, or a captured greedy class quantifier (`(\S+)` or `(\d+)`). -/
inductive RTok where
  | lit (cs : List Char) : RTok
  | ws : RTok
  | grpNonspace : RTok
  | grpDigits : RTok

/-- Backtracking for a greedy `+` quantifier: the continuation is tried at
consumption lengths `k, k-1, …, 1` (longest first, as a greedy quantifier
backtracks); zero consumed characters is a failure since `+` needs one. -/
def tryLens (f : Nat → Option (List (List Char))) : Nat → Option (List (List Char))
  | 0 => none
  | Nat.succ k =>
      match f (Nat.succ k) with
      | some r => some r
      | none => tryLens f k

/-- Match a token sequence against a prefix of `s`; `cont` receives the
list of captured groups.  Quantifiers consume at most their maximal
class run, longest first. -/
def matchSeq : List RTok → List Char → (List (List Char) → Option (List (List Char))) →
    Option (List (List Char))
  | [], _, cont => cont []
  | RTok.lit cs :: ts, s, cont =>
      if cs.isPrefixOf s then matchSeq ts (s.drop cs.length) cont else none
  | RTok.ws :: ts, s, cont =>
      tryLens (fun k => matchSeq ts (s.drop k) cont)
        (s.takeWhile isPySpace).length
  | RTok.grpNonspace :: ts, s, cont =>
      tryLens (fun k => matchSeq ts (s.drop k) (fun gs => cont (s.take k :: gs)))
        (s.takeWhile (fun c => !(isPySpace c))).length
  | RTok.grpDigits :: ts, s, cont =>
      tryLens (fun k => matchSeq ts (s.drop k) (fun gs => cont (s.take k :: gs)))
        (s.takeWhile isPyDigit).length

/-- `re.search`: try a match starting at every position, leftmost first. -/
def reSearch (toks : List RTok) : List Char → Option (List (List Char))
  | [] => matchSeq toks [] some
  | c :: s =>
      match matchSeq toks (c :: s) some with
      | some gs => some gs
      | none => reSearch toks s

/-- The source pattern
`psql\s+-h\s+(\S+)\s+-p\s+(\d+)\s+-d\s+(\S+)\s+-U\s+(\S+)`. -/
def psqlPattern : List RTok :=
  [RTok.lit ['p', 's', 'q', 'l'], RTok.ws,
   RTok.lit ['-', 'h'], RTok.ws, RTok.grpNonspace, RTok.ws,
   RTok.lit ['-', 'p'], RTok.ws, RTok.grpDigits, RTok.ws,
   RTok.lit ['-', 'd'], RTok.ws, RTok.grpNonspace, RTok.ws,
   RTok.lit ['-', 'U'], RTok.ws, RTok.grpNonspace]

/-- Python `str.strip()`: drop leading and trailing whitespace. -/
def pyStrip (s : List Char) : List Char :=
  ((s.dropWhile isPySpace).reverse.dropWhile isPySpace).reverse

/-- Python `int` applied to a nonempty ASCII digit string. -/
def digitsToNat (cs : List Char) : Nat :=
  cs.foldl (fun n c => n * 10 + (c.toNat - 48)) 0

/-- The dictionary returned by a successful parse. -/
structure PsqlConfig where
  host : String
  port : Nat
  database : String
  user : String
deriving DecidableEq

/-- `parse_psql_connection_string` (postgres_connection.py line 42):
strip the input, search for the fixed pattern, raise `ValueError` when it
does not occur, and otherwise return the four captured fields with the
port converted by `int`. -/
def parse_psql_connection_string (connection_string : String) :
    Except String PsqlConfig :=
  let cleaned := pyStrip connection_string.toList
  match reSearch psqlPattern cleaned with
  | some [h, p, d, u] =>
      Except.ok { host := String.mk h, port := digitsToNat p,
                  database := String.mk d, user := String.mk u }
  | _ =>
      Except.error
        "Invalid psql connection string format. Expected: psql -h hostname -p port -d database -U username"

/-! ### Connection registry (postgres_connection.py, lines 144-181)

`get_connection_pool` caches one `asyncpg` pool per group id in the dict
`self._connection_pools`.  The dict is modelled as an association list
(newest entry first, which is how lookup-after-insert behaves); pools are
identified by the `Nat` drawn from an allocation counter, so "the same
pool object" is literal equality of identifiers.  Whether
`asyncpg.create_pool` succeeds for given parameters is supplied by the
environment; the per-call trace counts password decryptions and pool
creations so that "no new pool creation and no decryption" is a statement
about the code path taken. -/

structure DbConfig where
  host : String
  port : Nat
  database : String
  user : String
  password : Ciphertext
  ssl : Option Bool
deriving DecidableEq

/-- The keyword arguments handed to `asyncpg.create_pool`
(postgres_connection.py lines 160-170). -/
structure ConnParams where
  host : String
  port : Nat
  database : String
  user : String
  password : String
  ssl : Bool
  min_size : Nat
  max_size : Nat
  command_timeout : Nat
deriving DecidableEq

def mkConnParams (config : DbConfig) (plain : String) : ConnParams :=
  { host := config.host, port := config.port, database := config.database,
    user := config.user, password := plain, ssl := config.ssl.getD true,
    min_size := 1, max_size := 5, command_timeout := 30 }

structure Registry where
  pools : List (String × Nat)
  nextPool : Nat
  key : Nat
deriving DecidableEq

structure PoolEnv where
  canConnect : ConnParams → Bool

structure CallTrace where
  decryptCalls : Nat
  poolsCreated : Nat
deriving DecidableEq

/-- `get_connection_pool` (postgres_connection.py line 144): return the
cached pool when `group_id` is a key of `self._connection_pools`;
otherwise decrypt the configured password, attempt to create a pool, cache
and return it on success, and return `None` when the `try` block raises
(decryption failure or unreachable database). -/
def get_connection_pool (env : PoolEnv) (st : Registry) (group_id : String)
    (config : DbConfig) : Option Nat × Registry × CallTrace :=
  match st.pools.find? (fun p => p.1 == group_id) with
  | some p => (some p.2, st, { decryptCalls := 0, poolsCreated := 0 })
  | none =>
      match decrypt_password st.key config.password with
      | Except.error _ => (none, st, { decryptCalls := 1, poolsCreated := 0 })
      | Except.ok plain =>
          if env.canConnect (mkConnParams config plain) then
            (some st.nextPool,
             { st with pools := (group_id, st.nextPool) :: st.pools,
                       nextPool := st.nextPool + 1 },
             { decryptCalls := 1, poolsCreated := 1 })
          else (none, st, { decryptCalls := 1, poolsCreated := 0 })

/-! ### Tenant metadata and the configuration read-back (groups.py, logs.py)

A group record carries an opaque `data` blob; its optional `database`
sub-object holds the enabled flag and the connection dict.  A missing
`data`, an empty `data` dict and a `data` without the `"database"` key all
behave identically in the source (`not group.data or "database" not in
group.data`), so they are collapsed into `none`.  The connection dict is
an association list of string keys and values; `enabled` collapses
`db_config.get("enabled", False)` (absent key behaves as `false`). -/

structure DatabaseCfg where
  enabled : Bool
  connection : List (String × String)
deriving DecidableEq

structure GroupData where
  database : Option DatabaseCfg
deriving DecidableEq

structure Group where
  id : String
  name : String
  data : Option GroupData
deriving DecidableEq

/-- `Groups.get_group_by_id`: first record in the store with the given id. -/
def getGroupById (store : List Group) (gid : String) : Option Group :=
  store.find? (fun g => g.id == gid)

/-- Python dict assignment `d[k] = v` on an association list. -/
def setKey (l : List (String × String)) (k v : String) : List (String × String) :=
  l.map (fun p => if p.1 == k then (k, v) else p)

structure DatabaseConfigResponse where
  enabled : Bool
  connection : List (String × String)
deriving DecidableEq

/-- `get_group_database_config` (groups.py lines 346-384): 404 when the
group does not exist; an empty disabled response when it has no database
configuration; otherwise the stored configuration with the `password`
entry of the connection dict replaced by the placeholder
`"***encrypted***"` whenever it is present. -/
def get_group_database_config (store : List Group) (id : String) :
    Except String DatabaseConfigResponse :=
  match getGroupById store id with
  | none => Except.error "Group not found"
  | some group =>
      match group.data with
      | none => Except.ok { enabled := false, connection := [] }
      | some gdata =>
          match gdata.database with
          | none => Except.ok { enabled := false, connection := [] }
          | some db_config =>
              let safe_connection :=
                if (db_config.connection.find? (fun p => p.1 == "password")).isSome then
                  setKey db_config.connection "password" "***encrypted***"
                else db_config.connection
              Except.ok { enabled := db_config.enabled, connection := safe_connection }

/-! ### The federated query endpoint (logs.py, lines 221-398)

The embedding follows the source control flow stage by stage:

* `resolveUserGroups` — the role dispatch of lines 244-257;
* `requestedGroups` — the optional `group_id` narrowing of lines 260-263;
* `buildLogsQuery` — the per-tenant SQL construction of lines 288-353;
* `step` / `runTenants` — the fan-out loop of lines 272-373, threading the
  accumulated logs, categories, debug strings and the (mutated) `sort_by`
  local through the iterations;
* `pySort` / `mergedLogs` — the merge sort of lines 375-378;
* `get_logs` — the final pagination and response envelope of lines
  380-398.

Network effects are supplied by `Env`: `acquire` says whether the pooled
connection for a tenant can be checked out (`postgres_manager.
get_connection` succeeding), and `run` maps the built query to rows or to
a raised error.  Rows are modelled with the columns the claims mention;
`created_at`/`updated_at` carry the already-formatted ISO strings (the
`safe_datetime_to_string` conversion of `format_log_entry`), and the
`%Y-%m-%d` date filters are assumed well-formed (an invalid date string
raises inside the per-tenant `try` and is indistinguishable from that
tenant's query failing, which `run` already models). -/

structure Row where
  id : Int
  created_at : String
  updated_at : String
  insight_title : String
  user_name : String
  problem_category : Option String
deriving DecidableEq

structure LogRec where
  id : Int
  created_at : String
  updated_at : String
  insight_title : String
  user_name : String
  problem_category : Option String
  source_group_name : String
  source_group_id : String
deriving DecidableEq

/-- `format_log_entry` (logs.py line 108) restricted to the modelled
columns: copy the row fields and attach the source group's name and id. -/
def format_log_entry (row : Row) (group_name : String) (group_id : String) : LogRec :=
  { id := row.id, created_at := row.created_at, updated_at := row.updated_at,
    insight_title := row.insight_title, user_name := row.user_name,
    problem_category := row.problem_category,
    source_group_name := group_name, source_group_id := group_id }

structure User where
  id : String
  role : String
  managed_groups : List String
deriving DecidableEq

structure Request where
  group_id : Option String
  category : Option String
  business_impact : Option String
  verified : Option Bool
  equipment : Option String
  user_filter : Option String
  title_search : Option String
  date_after : Option String
  date_before : Option String
  limit : Nat
  offset : Nat
  sort_by : String
  sort_desc : Bool
deriving DecidableEq

/-- A bound query parameter as appended to `query_params`. -/
inductive Param where
  | str (s : String) : Param
  | bool (b : Bool) : Param
  | date (d : String) : Param
  | nat (n : Nat) : Param
deriving DecidableEq

structure Env where
  store : List Group
  isMember : String → String → Bool
  acquire : String → Bool
  run : String → String × List Param → Except String (List Row)

/-- `get_group_database_connection` (logs.py line 96): the connection dict
of the group's database configuration when the group exists, has one, and
it is enabled; `None` otherwise. -/
def get_group_database_connection (store : List Group) (group_id : String) :
    Option (List (String × String)) :=
  match getGroupById store group_id with
  | none => none
  | some group =>
      match group.data with
      | none => none
      | some gdata =>
          match gdata.database with
          | none => none
          | some db_config =>
              if db_config.enabled then some db_config.connection else none

/-- The role dispatch of logs.py lines 244-257: admins see the whole
store, managers see the existing groups among their managed ids (in that
order, dropping unknown ids as the source's `is not None` filter does, and
an unset or empty list resolving to no groups), everyone else sees the
groups they are a member of. -/
def resolveUserGroups (env : Env) (user : User) : List Group :=
  if user.role == "admin" then env.store
  else if user.role == "manager" then
    if user.managed_groups.isEmpty then []
    else user.managed_groups.filterMap (getGroupById env.store)
  else env.store.filter (fun g => env.isMember user.id g.id)

/-- Python truthiness of an optional string (`if category:` and friends):
present and nonempty. -/
def strTruthy : Option String → Bool
  | none => false
  | some s => s != ""

/-- The `group_id` narrowing of logs.py lines 260-263 (note `if group_id:`
is string truthiness, so an empty string does not narrow). -/
def requestedGroups (env : Env) (user : User) (r : Request) : List Group :=
  let ug := resolveUserGroups env user
  match r.group_id with
  | some gid => if gid != "" then ug.filter (fun g => g.id == gid) else ug
  | none => ug

def initDebug (user : User) (r : Request) (ug : List Group) : List String :=
  (match r.group_id with
   | some gid => if gid != "" then ["Filtering to specific group: " ++ gid] else []
   | none => []) ++
  ["User " ++ user.id ++ " has " ++ toString ug.length ++ " groups"]

/-- The base SELECT of logs.py lines 288-297 (a Python triple-quoted
string, hence the leading newline and the indentation). -/
def baseQuery : String :=
  "\n                    SELECT id, session_id, user_name, insight_title, insight_content,\n                           ai_generated_at, ai_model, ai_confidence_score, equipment_group,\n                           problem_category, root_cause, solution_steps, tools_required,\n                           verified, verification_method, verified_at, verified_by,\n                           business_impact, tags, source, log_type, notes,\n                           activation_status, created_at, updated_at\n                    FROM logs\n                    WHERE activation_status != \x27deleted\x27\n                    "

/-- One conditional filter block of logs.py lines 301-335: when the filter
is truthy, extend the SQL text with the clause numbered by the next
placeholder index and append the bound value to `query_params`. -/
def addFilter (cond : Bool) (clause : Nat → String) (value : Param) :
    String × List Param → String × List Param :=
  fun qp => if cond then (qp.1 ++ clause (qp.2.length + 1), qp.2 ++ [value]) else qp

def valid_sort_fields : List String :=
  ["created_at", "updated_at", "insight_title", "problem_category", "user_name"]

/-- The allow-list normalization of logs.py lines 338-340. -/
def normalizeSort (sort_by : String) : String :=
  if valid_sort_fields.contains sort_by then sort_by else "created_at"

/-- Run the conditional filter blocks in order. -/
def buildFilters : List (Bool × (Nat → String) × Param) → String × List Param →
    String × List Param
  | [], qp => qp
  | (c, cl, v) :: fs, qp => buildFilters fs (addFilter c cl v qp)

/-- The eight filter blocks of logs.py lines 301-335, in source order:
condition (Python truthiness), SQL clause as a function of the placeholder
number, and the bound value appended to `query_params`. -/
def filterSpecs (r : Request) : List (Bool × (Nat → String) × Param) :=
  [(strTruthy r.category,
    fun n => " AND problem_category = $" ++ toString n,
    Param.str (r.category.getD "")),
   (strTruthy r.business_impact,
    fun n => " AND business_impact = $" ++ toString n,
    Param.str (r.business_impact.getD "")),
   (r.verified.isSome,
    fun n => " AND verified = $" ++ toString n,
    Param.bool (r.verified.getD false)),
   (strTruthy r.equipment,
    fun n => " AND equipment_group @> $" ++ toString n,
    Param.str ("[\"" ++ r.equipment.getD "" ++ "\"]")),
   (strTruthy r.user_filter,
    fun n => " AND LOWER(user_name) LIKE LOWER($" ++ toString n ++ ")",
    Param.str ("%" ++ r.user_filter.getD "" ++ "%")),
   (strTruthy r.title_search,
    fun n => " AND LOWER(insight_title) LIKE LOWER($" ++ toString n ++ ")",
    Param.str ("%" ++ r.title_search.getD "" ++ "%")),
   (strTruthy r.date_after,
    fun n => " AND created_at::date >= $" ++ toString n,
    Param.date (r.date_after.getD "")),
   (strTruthy r.date_before,
    fun n => " AND created_at::date <= $" ++ toString n,
    Param.date (r.date_before.getD ""))]

/-- The tenant-local query construction of logs.py lines 288-353, given
the (already normalized) sort field: the filter blocks in source order,
then `ORDER BY`, the `LIMIT` placeholder, and the `OFFSET` placeholder
when `offset > 0`. -/
def buildLogsQuery (r : Request) (sort_by : String) : String × List Param :=
  let qp := buildFilters (filterSpecs r) (baseQuery, ([] : List Param))
  let q := qp.1 ++ " ORDER BY " ++ sort_by ++ (if r.sort_desc then " DESC" else "")
  let q := q ++ " LIMIT $" ++ toString (qp.2.length + 1)
  let ps := qp.2 ++ [Param.nat r.limit]
  if r.offset > 0 then
    (q ++ " OFFSET $" ++ toString (ps.length + 1), ps ++ [Param.nat r.offset])
  else (q, ps)

/-- `if log_dict.get("problem_category"):` — collect the category when it
is a truthy (present, nonempty) string. -/
def truthyCategory (row : Row) : Option String :=
  match row.problem_category with
  | some c => if c != "" then some c else none
  | none => none

/-- The per-iteration loop state of the fan-out (logs.py lines 268-373):
the accumulated formatted logs, the collected categories, the debug trace,
and the function-local `sort_by` variable that the allow-list check of
lines 338-340 mutates. -/
structure LoopSt where
  logs : List LogRec
  cats : List String
  dbg : List String
  sortBy : String
deriving DecidableEq

/-- One iteration of `for group in user_groups` (logs.py lines 272-373):
record the progress debug entries; skip tenants without an enabled
configuration; on a connection-acquisition failure the body never runs and
the exception is caught at line 371; otherwise normalize `sort_by`, build
and run the tenant-local query, and either append the formatted rows and
categories (success) or swallow the error and continue (line 371-373,
which appends nothing to the debug trace). -/
def step (env : Env) (r : Request) (st : LoopSt) (g : Group) : LoopSt :=
  let dbg := st.dbg ++ ["Processing group " ++ g.id ++ " (" ++ g.name ++ ")"]
  match get_group_database_connection env.store g.id with
  | none => { st with dbg := dbg ++ ["Group " ++ g.id ++ " has no database configuration"] }
  | some _ =>
      let dbg := dbg ++ ["Group " ++ g.id ++ " has database configuration, querying logs"]
      if env.acquire g.id then
        let sortBy := normalizeSort st.sortBy
        let q := buildLogsQuery r sortBy
        match env.run g.id q with
        | Except.ok rows =>
            { logs := st.logs ++ rows.map (fun row => format_log_entry row g.name g.id),
              cats := st.cats ++ rows.filterMap truthyCategory,
              dbg := dbg ++ ["Query returned " ++ toString rows.length ++
                             " logs from group " ++ g.id],
              sortBy := sortBy }
        | Except.error _ => { st with dbg := dbg, sortBy := sortBy }
      else { st with dbg := dbg }

def runTenants (env : Env) (user : User) (r : Request) : LoopSt :=
  let ug := requestedGroups env user r
  ug.foldl (step env r)
    { logs := [], cats := [], dbg := initDebug user r ug, sortBy := r.sort_by }

/-- `getattr(x, sort_by, "")` on a formatted record: the four plain string
sort fields give strings, `problem_category` gives its optional value
(`None` for a record without a category). -/
def getattrKey (l : LogRec) (field : String) : Option String :=
  if field == "created_at" then some l.created_at
  else if field == "updated_at" then some l.updated_at
  else if field == "insight_title" then some l.insight_title
  else if field == "user_name" then some l.user_name
  else if field == "problem_category" then l.problem_category
  else some ""

def keyStr (field : String) (l : LogRec) : String :=
  (getattrKey l field).getD ""

/-- Python string comparison on char lists: lexicographic by Unicode code
point, with a proper prefix ordered before its extensions. -/
def charListLe : List Char → List Char → Bool
  | [], _ => true
  | _ :: _, [] => false
  | a :: as, b :: bs => if a = b then charListLe as bs else decide (a < b)

/-- Python `str` less-or-equal. -/
def pyStrLe (a b : String) : Bool :=
  charListLe a.data b.data

/-- The comparison performed by `all_logs.sort(key=..., reverse=reverse)`:
ascending on the keys, or descending when `reverse` is set; in both cases
two records with equal keys are related both ways, so a stable sort keeps
them in list order — exactly the CPython semantics. -/
def sortLe (field : String) (desc : Bool) (a b : LogRec) : Bool :=
  if desc then pyStrLe (keyStr field b) (keyStr field a)
  else pyStrLe (keyStr field a) (keyStr field b)

def sortRel (field : String) (desc : Bool) (a b : LogRec) : Prop :=
  sortLe field desc a b = true

instance (field : String) (desc : Bool) : DecidableRel (sortRel field desc) :=
  fun a b => inferInstanceAs (Decidable (sortLe field desc a b = true))

/-- Python `all_logs.sort(key=lambda x: getattr(x, sort_by, ""),
reverse=reverse)`: raises `TypeError` when a `None` key meets a comparison
(at least two elements and some key is `None`, which only the
`problem_category` field can produce); otherwise a stable sort on the
string keys, descending when `reverse` is set, ties keeping list order
(modelled by `List.insertionSort`, which is stable and sorted — the same
extensional behavior as CPython timsort). -/
def pySort (field : String) (desc : Bool) (logs : List LogRec) :
    Except String (List LogRec) :=
  if 2 ≤ logs.length ∧ ∃ l ∈ logs, getattrKey l field = none then
    Except.error "TypeError"
  else
    Except.ok (logs.insertionSort (sortRel field desc))

/-- The re-sort condition of logs.py line 376: more than one of the
resolved groups still exists in the store. -/
def multiGroup (env : Env) (user : User) (r : Request) : Bool :=
  1 < ((requestedGroups env user r).filter
        (fun g => (getGroupById env.store g.id).isSome)).length

/-- The merged accumulation just before the final pagination (logs.py
lines 375-378): re-sorted when more than one group resolved, left in
accumulation order otherwise. -/
def mergedLogs (env : Env) (user : User) (r : Request) :
    Except String (List LogRec) :=
  let st := runTenants env user r
  if multiGroup env user r then pySort st.sortBy r.sort_desc st.logs
  else Except.ok st.logs

structure LogsListResponse where
  logs : List LogRec
  total : Nat
  has_more : Bool
  categories : List String
  debug_info : List String
deriving DecidableEq

/-- Python `sorted(list(set(...)))`. -/
def sortedDedup (l : List String) : List String :=
  l.eraseDups.insertionSort (fun a b => pyStrLe a b = true)

/-- `get_logs` (logs.py lines 221-398): resolve and narrow the tenant set,
fan out, merge, truncate to the global `limit` (lines 380-383 — note the
`offset` is not re-applied here), and assemble the response envelope; an
exception escaping the merge (the `TypeError` of a `None` sort key) is
caught at line 393 and surfaces as the HTTP 500 error. -/
def get_logs (env : Env) (user : User) (r : Request) :
    Except String LogsListResponse :=
  match mergedLogs env user r with
  | Except.error e => Except.error ("Error retrieving logs: " ++ e)
  | Except.ok merged =>
      let st := runTenants env user r
      Except.ok
        { logs := if merged.length > r.limit then merged.take r.limit else merged,
          total := merged.length,
          has_more := decide (merged.length > r.limit),
          categories := sortedDedup st.cats,
          debug_info := st.dbg }

/-! ### Concrete instances used by witnesses and counterexamples -/

def cfgW : DbConfig :=
  { host := "h", port := 5432, database := "db", user := "usr",
    password := Ciphertext.empty, ssl := none }

def connW : List (String × String) := [("host", "h"), ("password", "ct")]

def dbW : DatabaseCfg := { enabled := true, connection := connW }

def gW : Group := { id := "g1", name := "Alpha", data := some { database := some dbW } }

def storeW : List Group := [gW]

def envW : Env :=
  { store := storeW, isMember := fun _ _ => false,
    acquire := fun _ => true, run := fun _ _ => Except.ok [] }

/-! ### Reference views of the fan-out loop

`sort_by` is normalized inside every loop iteration before the query is
built, and normalization is idempotent, so every executed tenant query is
the constant `tenantQuery`; `tenantRows` is what one tenant contributes
(empty on a missing configuration, an acquisition failure, or a query
error), and `accumRef` is the whole accumulation in iteration order.
`mergedOk` and `respOf` name the merged list and the response envelope so
that theorems can speak about them without existential packaging. -/

def tenantQuery (r : Request) : String × List Param :=
  buildLogsQuery r (normalizeSort r.sort_by)

def tenantRows (env : Env) (r : Request) (g : Group) : List Row :=
  match get_group_database_connection env.store g.id with
  | none => []
  | some _ =>
      if env.acquire g.id then
        match env.run g.id (tenantQuery r) with
        | Except.ok rows => rows
        | Except.error _ => []
      else []

def accumRef (env : Env) (r : Request) (gs : List Group) : List LogRec :=
  gs.flatMap (fun g => (tenantRows env r g).map (fun row => format_log_entry row g.name g.id))

def mergedOk (env : Env) (u : User) (r : Request) : List LogRec :=
  match mergedLogs env u r with
  | Except.ok m => m
  | Except.error _ => []

def respOf (env : Env) (u : User) (r : Request) : LogsListResponse :=
  match get_logs env u r with
  | Except.ok res => res
  | Except.error _ => { logs := [], total := 0, has_more := false, categories := [], debug_info := [] }

/-! ### Concrete environments for the federated-query claims -/

def mkReq (limit offset : Nat) (sort_by : String) (desc : Bool) : Request :=
  { group_id := none, category := none, business_impact := none, verified := none,
    equipment := none, user_filter := none, title_search := none,
    date_after := none, date_before := none,
    limit := limit, offset := offset, sort_by := sort_by, sort_desc := desc }

def mkRow (i : Int) (ca : String) : Row :=
  { id := i, created_at := ca, updated_at := "", insight_title := "t",
    user_name := "u", problem_category := none }

def mkGroup (i n : String) : Group :=
  { id := i, name := n, data := some { database := some { enabled := true, connection := [] } } }

def adminC : User := { id := "u1", role := "admin", managed_groups := [] }

def envC1 : Env :=
  { store := [mkGroup "g1" "Alpha", mkGroup "g2" "Beta", mkGroup "g3" "Gamma"],
    isMember := fun _ _ => false,
    acquire := fun gid => gid != "g1",
    run := fun gid _ =>
      if gid == "g2" then Except.ok [mkRow 1 "2024-01-02"]
      else Except.ok [mkRow 2 "2024-01-01"] }

def reqC1 : Request := mkReq 1 0 "created_at" true

def recC1a : LogRec := format_log_entry (mkRow 1 "2024-01-02") "Beta" "g2"

def recC1b : LogRec := format_log_entry (mkRow 2 "2024-01-01") "Gamma" "g3"

def envC2 : Env :=
  { store := [mkGroup "ga" "A", mkGroup "gb" "B"],
    isMember := fun _ _ => false,
    acquire := fun _ => true,
    run := fun gid _ =>
      if gid == "ga" then Except.ok [mkRow 1 "2024-01-02"]
      else Except.ok [mkRow 2 "2024-01-01"] }

def reqC2 : Request := mkReq 1 1 "created_at" true

def recC2a : LogRec := format_log_entry (mkRow 1 "2024-01-02") "A" "ga"

def recC2b : LogRec := format_log_entry (mkRow 2 "2024-01-01") "B" "gb"

def envC3 : Env :=
  { store := [mkGroup "g2" "Beta", mkGroup "g1" "Alpha"],
    isMember := fun _ _ => false,
    acquire := fun _ => true,
    run := fun gid _ =>
      if gid == "g2" then Except.ok [mkRow 1 "2024-01-01"]
      else Except.ok [mkRow 2 "2024-01-01"] }

def reqC3 : Request := mkReq 50 0 "created_at" true

def envP : Env :=
  { store := [mkGroup "p1" "G1", mkGroup "p2" "G2", mkGroup "p3" "G3"],
    isMember := fun _ _ => false,
    acquire := fun _ => true,
    run := fun gid _ =>
      if gid == "p1" then
        Except.ok [mkRow 1 "d12", mkRow 2 "d11", mkRow 3 "d10", mkRow 4 "d09", mkRow 5 "d08"]
      else if gid == "p2" then
        Except.ok [mkRow 6 "d07", mkRow 7 "d06", mkRow 8 "d05", mkRow 9 "d04", mkRow 10 "d03"]
      else Except.ok [mkRow 11 "d02", mkRow 12 "d01"] }

def reqP : Request := mkReq 5 0 "created_at" true

/-! ### Helper lemmas for the regex matcher -/

theorem takeWhile_all {P : Char → Bool} : ∀ {l : List Char}, (∀ c ∈ l, P c = true) →
    l.takeWhile P = l
  | [], _ => rfl
  | a :: l, h => by
      rw [List.takeWhile_cons, if_pos (h a (by simp))]
      rw [takeWhile_all (fun c hc => h c (by simp [hc]))]

theorem takeWhile_append_run {P : Char → Bool} {l rest : List Char}
    (hl : ∀ c ∈ l, P c = true) (hrest : rest.takeWhile P = []) :
    (l ++ rest).takeWhile P = l := by
  rw [List.takeWhile_append, takeWhile_all hl]
  simp [hrest]

theorem tryLens_pos (f : Nat → Option (List (List Char))) (n : Nat) (hn : n ≠ 0)
    (r : List (List Char)) (hf : f n = some r) : tryLens f n = some r := by
  cases n with
  | zero => exact absurd rfl hn
  | succ k => unfold tryLens; rw [hf]

theorem matchSeq_lit_step (cs : List Char) (ts : List RTok) (s : List Char)
    (cont : List (List Char) → Option (List (List Char)))
    (hpre : cs.isPrefixOf s = true) :
    matchSeq (RTok.lit cs :: ts) s cont = matchSeq ts (s.drop cs.length) cont := by
  conv_lhs => unfold matchSeq
  rw [hpre]
  simp

theorem matchSeq_ws_single (ts : List RTok) (s : List Char)
    (cont : List (List Char) → Option (List (List Char))) (r : List (List Char))
    (hs : s.takeWhile isPySpace = [])
    (hnext : matchSeq ts s cont = some r) :
    matchSeq (RTok.ws :: ts) (' ' :: s) cont = some r := by
  conv_lhs => unfold matchSeq
  rw [List.takeWhile_cons]
  simp only [show isPySpace ' ' = true from rfl, if_true, hs, List.length_cons,
    List.length_nil]
  unfold tryLens
  simp only [List.drop_succ_cons, List.drop_zero, hnext]

theorem matchSeq_grp_nonspace (ts : List RTok) (l rest : List Char)
    (cont : List (List Char) → Option (List (List Char))) (r : List (List Char))
    (hl : ∀ c ∈ l, isPySpace c = false) (hl0 : l ≠ [])
    (hrest : rest.takeWhile (fun c => !(isPySpace c)) = [])
    (hnext : matchSeq ts rest (fun gs => cont (l :: gs)) = some r) :
    matchSeq (RTok.grpNonspace :: ts) (l ++ rest) cont = some r := by
  conv_lhs => unfold matchSeq
  rw [takeWhile_append_run (fun c hc => by simp [hl c hc]) hrest]
  apply tryLens_pos _ _ (by simpa using hl0)
  rw [List.drop_left, List.take_left]
  exact hnext

theorem matchSeq_grp_nonspace_end (ts : List RTok) (l : List Char)
    (cont : List (List Char) → Option (List (List Char))) (r : List (List Char))
    (hl : ∀ c ∈ l, isPySpace c = false) (hl0 : l ≠ [])
    (hnext : matchSeq ts [] (fun gs => cont (l :: gs)) = some r) :
    matchSeq (RTok.grpNonspace :: ts) l cont = some r := by
  conv_lhs => unfold matchSeq
  rw [takeWhile_all (P := fun c => !(isPySpace c)) (fun c hc => by simp [hl c hc])]
  apply tryLens_pos _ _ (by simpa using hl0)
  rw [List.drop_length, List.take_length]
  exact hnext

theorem matchSeq_grp_digits (ts : List RTok) (l rest : List Char)
    (cont : List (List Char) → Option (List (List Char))) (r : List (List Char))
    (hl : ∀ c ∈ l, isPyDigit c = true) (hl0 : l ≠ [])
    (hrest : rest.takeWhile isPyDigit = [])
    (hnext : matchSeq ts rest (fun gs => cont (l :: gs)) = some r) :
    matchSeq (RTok.grpDigits :: ts) (l ++ rest) cont = some r := by
  conv_lhs => unfold matchSeq
  rw [takeWhile_append_run hl hrest]
  apply tryLens_pos _ _ (by simpa using hl0)
  rw [List.drop_left, List.take_left]
  exact hnext

theorem matchSeq_lit_apply (cs : List Char) (ts : List RTok) (s : List Char)
    (cont : List (List Char) → Option (List (List Char))) (r : List (List Char))
    (hpre : cs.isPrefixOf s = true)
    (hnext : matchSeq ts (s.drop cs.length) cont = some r) :
    matchSeq (RTok.lit cs :: ts) s cont = some r := by
  rw [matchSeq_lit_step _ _ _ _ hpre]
  exact hnext

theorem takeWhile_eq_nil {P : Char → Bool} {l : List Char}
    (hl0 : l ≠ []) (hl : ∀ c ∈ l, P c = false) : l.takeWhile P = [] := by
  obtain ⟨a, t, rfl⟩ := List.exists_cons_of_ne_nil hl0
  simp [List.takeWhile_cons, hl a (by simp)]

theorem takeWhile_append_nil {P : Char → Bool} {l rest : List Char}
    (hl0 : l ≠ []) (hl : ∀ c ∈ l, P c = false) : (l ++ rest).takeWhile P = [] := by
  obtain ⟨a, t, rfl⟩ := List.exists_cons_of_ne_nil hl0
  simp [List.takeWhile_cons, hl a (by simp)]

theorem digit_not_space {c : Char} (hc : isPyDigit c = true) : isPySpace c = false := by
  have hne : c ≠ ' ' ∧ c ≠ '\t' ∧ c ≠ '\n' ∧ c ≠ '\r' ∧ c ≠ '\x0b' ∧ c ≠ '\x0c' := by
    refine ⟨?_, ?_, ?_, ?_, ?_, ?_⟩ <;> rintro rfl <;> exact absurd hc (by decide)
  simp only [isPySpace, Bool.or_eq_false_iff]
  exact ⟨⟨⟨⟨⟨by simp [hne.1], by simp [hne.2.1]⟩, by simp [hne.2.2.1]⟩,
    by simp [hne.2.2.2.1]⟩, by simp [hne.2.2.2.2.1]⟩, by simp [hne.2.2.2.2.2]⟩

theorem matchSeq_psql_canonical (h p d u : List Char)
    (hh : ∀ c ∈ h, isPySpace c = false) (hh0 : h ≠ [])
    (hp : ∀ c ∈ p, isPyDigit c = true) (hp0 : p ≠ [])
    (hd : ∀ c ∈ d, isPySpace c = false) (hd0 : d ≠ [])
    (hu : ∀ c ∈ u, isPySpace c = false) (hu0 : u ≠ []) :
    matchSeq psqlPattern
      ('p' :: 's' :: 'q' :: 'l' :: ' ' :: '-' :: 'h' :: ' ' ::
        (h ++ ' ' :: '-' :: 'p' :: ' ' ::
          (p ++ ' ' :: '-' :: 'd' :: ' ' ::
            (d ++ ' ' :: '-' :: 'U' :: ' ' :: u))))
      some = some [h, p, d, u] := by
  have hpns : ∀ c ∈ p, isPySpace c = false := fun c hc => digit_not_space (hp c hc)
  unfold psqlPattern
  apply matchSeq_lit_apply _ _ _ _ _ (by simp [List.isPrefixOf])
  show matchSeq _ (' ' :: '-' :: 'h' :: ' ' ::
    (h ++ ' ' :: '-' :: 'p' :: ' ' ::
      (p ++ ' ' :: '-' :: 'd' :: ' ' ::
        (d ++ ' ' :: '-' :: 'U' :: ' ' :: u)))) _ = _
  apply matchSeq_ws_single _ _ _ _ (by simp [List.takeWhile_cons, isPySpace])
  apply matchSeq_lit_apply _ _ _ _ _ (by simp [List.isPrefixOf])
  show matchSeq _ (' ' ::
    (h ++ ' ' :: '-' :: 'p' :: ' ' ::
      (p ++ ' ' :: '-' :: 'd' :: ' ' ::
        (d ++ ' ' :: '-' :: 'U' :: ' ' :: u)))) _ = _
  apply matchSeq_ws_single _ _ _ _ (takeWhile_append_nil hh0 hh)
  apply matchSeq_grp_nonspace _ _ _ _ _ hh hh0
    (by simp [List.takeWhile_cons, isPySpace])
  apply matchSeq_ws_single _ _ _ _ (by simp [List.takeWhile_cons, isPySpace])
  apply matchSeq_lit_apply _ _ _ _ _ (by simp [List.isPrefixOf])
  show matchSeq _ (' ' ::
    (p ++ ' ' :: '-' :: 'd' :: ' ' ::
      (d ++ ' ' :: '-' :: 'U' :: ' ' :: u))) _ = _
  apply matchSeq_ws_single _ _ _ _ (takeWhile_append_nil hp0 hpns)
  apply matchSeq_grp_digits _ _ _ _ _ hp hp0
    (by simp [List.takeWhile_cons, isPyDigit])
  apply matchSeq_ws_single _ _ _ _ (by simp [List.takeWhile_cons, isPySpace])
  apply matchSeq_lit_apply _ _ _ _ _ (by simp [List.isPrefixOf])
  show matchSeq _ (' ' :: (d ++ ' ' :: '-' :: 'U' :: ' ' :: u)) _ = _
  apply matchSeq_ws_single _ _ _ _ (takeWhile_append_nil hd0 hd)
  apply matchSeq_grp_nonspace _ _ _ _ _ hd hd0
    (by simp [List.takeWhile_cons, isPySpace])
  apply matchSeq_ws_single _ _ _ _ (by simp [List.takeWhile_cons, isPySpace])
  apply matchSeq_lit_apply _ _ _ _ _ (by simp [List.isPrefixOf])
  show matchSeq _ (' ' :: u) _ = _
  apply matchSeq_ws_single _ _ _ _ (takeWhile_eq_nil hu0 hu)
  apply matchSeq_grp_nonspace_end _ _ _ _ hu hu0
  rfl

theorem reSearch_psql_canonical (h p d u : List Char)
    (hh : ∀ c ∈ h, isPySpace c = false) (hh0 : h ≠ [])
    (hp : ∀ c ∈ p, isPyDigit c = true) (hp0 : p ≠ [])
    (hd : ∀ c ∈ d, isPySpace c = false) (hd0 : d ≠ [])
    (hu : ∀ c ∈ u, isPySpace c = false) (hu0 : u ≠ []) :
    reSearch psqlPattern
      ('p' :: 's' :: 'q' :: 'l' :: ' ' :: '-' :: 'h' :: ' ' ::
        (h ++ ' ' :: '-' :: 'p' :: ' ' ::
          (p ++ ' ' :: '-' :: 'd' :: ' ' ::
            (d ++ ' ' :: '-' :: 'U' :: ' ' :: u))))
      = some [h, p, d, u] := by
  conv_lhs => unfold reSearch
  rw [matchSeq_psql_canonical h p d u hh hh0 hp hp0 hd hd0 hu hu0]

theorem pyStrip_id {l : List Char}
    (h1 : l.dropWhile isPySpace = l)
    (h2 : l.reverse.dropWhile isPySpace = l.reverse) : pyStrip l = l := by
  unfold pyStrip
  rw [h1, h2, List.reverse_reverse]

theorem dropWhile_reverse_of_last {l u : List Char} (A : List Char)
    (hshape : l = A ++ u) (hu0 : u ≠ []) (hu : ∀ c ∈ u, isPySpace c = false) :
    l.reverse.dropWhile isPySpace = l.reverse := by
  subst hshape
  obtain ⟨z, w, hzw⟩ := List.exists_cons_of_ne_nil (show u.reverse ≠ [] by simpa using hu0)
  have hz : isPySpace z = false := by
    apply hu z
    have : z ∈ u.reverse := by rw [hzw]; simp
    simpa using this
  rw [List.reverse_append, hzw, List.cons_append, List.dropWhile_cons]
  simp [hz]

/-! ### Claim C4 — vault round trip and empty-string sentinel -/

/-- C4: for every non-empty plaintext `pt`,
`decrypt_password (encrypt_password pt) = pt` under the same vault key, and
`encrypt_password ""` returns the fixed empty-string sentinel, which is not
engine-encrypted cipher material (never a Fernet token). -/
theorem vault_roundtrip_empty_sentinel (key : Nat) (pt : String) (hp : pt ≠ "") :
    decrypt_password key (encrypt_password key pt) = Except.ok pt
    ∧ encrypt_password key "" = Ciphertext.empty
    ∧ ∀ k q, encrypt_password key "" ≠ Ciphertext.token k q := by
  refine ⟨?_, ?_, ?_⟩
  · unfold encrypt_password decrypt_password
    rw [if_neg hp]
    simp
  · unfold encrypt_password
    simp
  · intro k q
    unfold encrypt_password
    simp

/-- Witness for C4 at the concrete plaintext `"hunter2"` and key `7`. -/
theorem vault_roundtrip_empty_sentinel_witness :
    decrypt_password 7 (encrypt_password 7 "hunter2") = Except.ok "hunter2"
    ∧ encrypt_password 7 "" = Ciphertext.empty
    ∧ ∀ k q, encrypt_password 7 "" ≠ Ciphertext.token k q :=
  vault_roundtrip_empty_sentinel 7 "hunter2" (by decide)

/-! ### Claim C5 — connection-string parser -/

/-- C5 counterexample: the descriptor
`psql -p 5432 -h db.example.com -d postgres -U admin` contains all four
host/port/database/user flags, yet parsing raises `ValueError` because the
source regex fixes the flag order, refuting "parse succeeds in any order of
the flags"; and `-p 0` parses successfully with port `0`, refuting "raises
FormatError exactly when any of the four fields is missing or the port is
not a positive integer" (0 is not a positive integer). -/
theorem parse_flag_order_counterexample :
    parse_psql_connection_string "psql -p 5432 -h db.example.com -d postgres -U admin" =
      Except.error
        "Invalid psql connection string format. Expected: psql -h hostname -p port -d database -U username"
    ∧ parse_psql_connection_string "psql -h db.example.com -p 0 -d postgres -U admin" =
      Except.ok { host := "db.example.com", port := 0, database := "postgres", user := "admin" } :=
  ⟨rfl, rfl⟩

/-- C5 (amended): for every descriptor in the canonical flag order
`psql -h HOST -p PORT -d DB -U USER` — with host, database and user
nonempty whitespace-free tokens and the port a nonempty digit string —
parsing succeeds and returns exactly those four values with the port
converted to an integer.  Flag order is fixed (the counterexample shows a
reordering raises), and the port digits are not range-checked, so `0` is
accepted although it is not a positive integer. -/
theorem parse_canonical_descriptor (h p d u : List Char)
    (hh : ∀ c ∈ h, isPySpace c = false) (hh0 : h ≠ [])
    (hp : ∀ c ∈ p, isPyDigit c = true) (hp0 : p ≠ [])
    (hd : ∀ c ∈ d, isPySpace c = false) (hd0 : d ≠ [])
    (hu : ∀ c ∈ u, isPySpace c = false) (hu0 : u ≠ []) :
    parse_psql_connection_string (String.mk
      ('p' :: 's' :: 'q' :: 'l' :: ' ' :: '-' :: 'h' :: ' ' ::
        (h ++ ' ' :: '-' :: 'p' :: ' ' ::
          (p ++ ' ' :: '-' :: 'd' :: ' ' ::
            (d ++ ' ' :: '-' :: 'U' :: ' ' :: u))))) =
      Except.ok { host := String.mk h, port := digitsToNat p,
                  database := String.mk d, user := String.mk u } := by
  have hstrip :
      pyStrip (String.mk
        ('p' :: 's' :: 'q' :: 'l' :: ' ' :: '-' :: 'h' :: ' ' ::
          (h ++ ' ' :: '-' :: 'p' :: ' ' ::
            (p ++ ' ' :: '-' :: 'd' :: ' ' ::
              (d ++ ' ' :: '-' :: 'U' :: ' ' :: u))))).toList =
      ('p' :: 's' :: 'q' :: 'l' :: ' ' :: '-' :: 'h' :: ' ' ::
        (h ++ ' ' :: '-' :: 'p' :: ' ' ::
          (p ++ ' ' :: '-' :: 'd' :: ' ' ::
            (d ++ ' ' :: '-' :: 'U' :: ' ' :: u)))) := by
    show pyStrip
      ('p' :: 's' :: 'q' :: 'l' :: ' ' :: '-' :: 'h' :: ' ' ::
        (h ++ ' ' :: '-' :: 'p' :: ' ' ::
          (p ++ ' ' :: '-' :: 'd' :: ' ' ::
            (d ++ ' ' :: '-' :: 'U' :: ' ' :: u)))) = _
    apply pyStrip_id
    · simp [List.dropWhile_cons, isPySpace]
    · apply dropWhile_reverse_of_last
        ('p' :: 's' :: 'q' :: 'l' :: ' ' :: '-' :: 'h' :: ' ' ::
          (h ++ ' ' :: '-' :: 'p' :: ' ' ::
            (p ++ ' ' :: '-' :: 'd' :: ' ' ::
              (d ++ [' ', '-', 'U', ' '])))) ?_ hu0 hu
      simp [List.cons_append, List.append_assoc]
  unfold parse_psql_connection_string
  rw [hstrip]
  simp only [reSearch_psql_canonical h p d u hh hh0 hp hp0 hd hd0 hu hu0]

/-- Witness for C5 (amended) at host `my`, port digits `0`, database `db`,
user `usr`: parsing succeeds and the non-positive port `0` is accepted. -/
theorem parse_canonical_descriptor_witness :
    parse_psql_connection_string (String.mk
      ('p' :: 's' :: 'q' :: 'l' :: ' ' :: '-' :: 'h' :: ' ' ::
        (['m', 'y'] ++ ' ' :: '-' :: 'p' :: ' ' ::
          (['0'] ++ ' ' :: '-' :: 'd' :: ' ' ::
            (['d', 'b'] ++ ' ' :: '-' :: 'U' :: ' ' :: ['u', 's', 'r']))))) =
      Except.ok { host := String.mk ['m', 'y'], port := digitsToNat ['0'],
                  database := String.mk ['d', 'b'], user := String.mk ['u', 's', 'r'] } :=
  parse_canonical_descriptor ['m', 'y'] ['0'] ['d', 'b'] ['u', 's', 'r']
    (by decide) (by decide) (by decide) (by decide)
    (by decide) (by decide) (by decide) (by decide)

/-! ### Claim C6 — connection registry idempotence -/

/-- C6: whenever a call to `get_connection_pool` returns a pool for
`tenant_id`, the next call with the same `tenant_id` and configuration
returns the identical cached pool, leaves the registry unchanged, creates
no new pool and performs no password decryption. -/
theorem get_connection_pool_idempotent (env : PoolEnv) (st : Registry)
    (gid : String) (cfg : DbConfig) (pool : Nat) (st1 : Registry) (tr : CallTrace)
    (hfirst : get_connection_pool env st gid cfg = (some pool, st1, tr)) :
    get_connection_pool env st1 gid cfg =
      (some pool, st1, { decryptCalls := 0, poolsCreated := 0 }) := by
  unfold get_connection_pool at hfirst
  cases hf : st.pools.find? (fun q => q.1 == gid) with
  | some q =>
      simp only [hf, Prod.mk.injEq, Option.some.injEq] at hfirst
      obtain ⟨hq, hst, -⟩ := hfirst
      subst hst
      unfold get_connection_pool
      simp only [hf, hq]
  | none =>
      simp only [hf] at hfirst
      cases hdec : decrypt_password st.key cfg.password with
      | error e =>
          simp only [hdec] at hfirst
          simp at hfirst
      | ok plain =>
          simp only [hdec] at hfirst
          by_cases hc : env.canConnect (mkConnParams cfg plain) = true
          · rw [if_pos hc] at hfirst
            simp only [Prod.mk.injEq, Option.some.injEq] at hfirst
            obtain ⟨hpool, hst, -⟩ := hfirst
            subst hst
            unfold get_connection_pool
            simp [List.find?_cons, hpool]
          · rw [if_neg hc] at hfirst
            simp at hfirst

/-- Witness for C6: an empty registry, a reachable database and the
concrete configuration `cfgW` — the second call returns pool `0` from the
cache with no decryption and no creation. -/
theorem get_connection_pool_idempotent_witness :
    get_connection_pool ⟨fun _ => true⟩
        { pools := [("g1", 0)], nextPool := 1, key := 0 } "g1" cfgW =
      (some 0, { pools := [("g1", 0)], nextPool := 1, key := 0 },
       { decryptCalls := 0, poolsCreated := 0 }) :=
  get_connection_pool_idempotent ⟨fun _ => true⟩
    { pools := [], nextPool := 0, key := 0 } "g1" cfgW 0
    { pools := [("g1", 0)], nextPool := 1, key := 0 }
    { decryptCalls := 1, poolsCreated := 1 } (by rfl)

/-! ### Claim C8 — configuration read-back redacts the password -/

/-- C8: for every stored group configuration whose connection dict
contains a `password` entry, `get_group_database_config` returns the
connection with that entry replaced by the fixed placeholder
`"***encrypted***"`; no value other than the placeholder is ever
associated with the `password` key in the response. -/
theorem config_readback_redacts (store : List Group) (gid : String)
    (g : Group) (gdata : GroupData) (db : DatabaseCfg)
    (hg : getGroupById store gid = some g)
    (hd : g.data = some gdata) (hdb : gdata.database = some db)
    (hpw : (db.connection.find? (fun q => q.1 == "password")).isSome = true) :
    ∃ resp, get_group_database_config store gid = Except.ok resp
      ∧ resp.enabled = db.enabled
      ∧ ("password", "***encrypted***") ∈ resp.connection
      ∧ ∀ v, ("password", v) ∈ resp.connection → v = "***encrypted***" := by
  refine ⟨⟨db.enabled, setKey db.connection "password" "***encrypted***"⟩, ?_, rfl, ?_, ?_⟩
  · simp only [get_group_database_config, hg, hd, hdb, hpw, if_true]
  · obtain ⟨q, hq⟩ := Option.isSome_iff_exists.mp hpw
    have hq1 : (q.1 == "password") = true := by
      have := List.find?_some hq
      simpa using this
    have hqm : q ∈ db.connection := List.mem_of_find?_eq_some hq
    unfold setKey
    refine List.mem_map.mpr ⟨q, hqm, ?_⟩
    rw [if_pos hq1]
  · intro v hv
    unfold setKey at hv
    obtain ⟨q, hqm, hqe⟩ := List.mem_map.mp hv
    by_cases h1 : (q.1 == "password") = true
    · rw [if_pos h1] at hqe
      exact (Prod.ext_iff.mp hqe).2.symm
    · rw [if_neg h1] at hqe
      exact absurd (by rw [hqe]; simp) h1

/-- Witness for C8 on the one-group store `storeW`, whose connection dict
contains a password entry. -/
theorem config_readback_redacts_witness :
    ∃ resp, get_group_database_config storeW "g1" = Except.ok resp
      ∧ resp.enabled = dbW.enabled
      ∧ ("password", "***encrypted***") ∈ resp.connection
      ∧ ∀ v, ("password", v) ∈ resp.connection → v = "***encrypted***" :=
  config_readback_redacts storeW "g1" gW { database := some dbW } dbW
    (by rfl) (by rfl) (by rfl) (by rfl)

/-! ### Claim C7 — tenant resolution by role -/

theorem map_id_filterMap_lookup (store : List Group) :
    ∀ (gids : List String), (∀ gid ∈ gids, (getGroupById store gid).isSome = true) →
      (gids.filterMap (getGroupById store)).map Group.id = gids
  | [], _ => rfl
  | gid :: gids, hm => by
      obtain ⟨g, hg⟩ := Option.isSome_iff_exists.mp (hm gid (by simp))
      have hg2 : store.find? (fun x => x.id == gid) = some g := hg
      have hgid : g.id = gid := by
        have := List.find?_some hg2
        simpa using this
      simp only [List.filterMap_cons, hg, List.map_cons, hgid]
      rw [map_id_filterMap_lookup store gids (fun x hx => hm x (by simp [hx]))]

/-- C7: tenant resolution — an admin resolves to the full known group
store; a manager resolves to exactly its assigned managed-group list
(empty when unset, and under the hypothesis that every assigned id names a
known group); any other role resolves to exactly the groups the user is a
member of. -/
theorem tenant_resolution_by_role (env : Env) (user : User)
    (hmg : ∀ gid ∈ user.managed_groups, (getGroupById env.store gid).isSome = true) :
    (user.role = "admin" → resolveUserGroups env user = env.store)
    ∧ (user.role = "manager" →
        (resolveUserGroups env user).map Group.id = user.managed_groups)
    ∧ (user.role ≠ "admin" → user.role ≠ "manager" →
        resolveUserGroups env user = env.store.filter (fun g => env.isMember user.id g.id)) := by
  refine ⟨?_, ?_, ?_⟩
  · intro hr
    unfold resolveUserGroups
    simp [hr]
  · intro hr
    have h1 : (user.role == "admin") = false := by simp [hr]
    have h2 : (user.role == "manager") = true := by simp [hr]
    unfold resolveUserGroups
    simp only [h1, h2, Bool.false_eq_true, if_false, if_true]
    by_cases he : user.managed_groups.isEmpty
    · rw [if_pos he]
      have hnil : user.managed_groups = [] := by simpa using he
      rw [hnil]
      rfl
    · rw [if_neg he]
      exact map_id_filterMap_lookup env.store user.managed_groups hmg
  · intro hr1 hr2
    have h1 : (user.role == "admin") = false := by simp [hr1]
    have h2 : (user.role == "manager") = false := by simp [hr2]
    unfold resolveUserGroups
    simp [h1, h2]

/-- Witness for C7: a manager with `managed_groups = ["g1"]` over the
store `storeW` (which knows `g1`) resolves to exactly `[g1]`. -/
theorem tenant_resolution_by_role_witness :
    (("manager" : String) = "admin" →
      resolveUserGroups envW { id := "u2", role := "manager", managed_groups := ["g1"] } = envW.store)
    ∧ (("manager" : String) = "manager" →
      (resolveUserGroups envW { id := "u2", role := "manager", managed_groups := ["g1"] }).map
        Group.id = ["g1"])
    ∧ (("manager" : String) ≠ "admin" → ("manager" : String) ≠ "manager" →
      resolveUserGroups envW { id := "u2", role := "manager", managed_groups := ["g1"] } =
        envW.store.filter (fun g => envW.isMember "u2" g.id)) :=
  tenant_resolution_by_role envW { id := "u2", role := "manager", managed_groups := ["g1"] }
    (by decide)

/-! ### Claim C9 — SQL text is independent of the filter values -/

theorem addFilter_congr (c : Bool) (cl : Nat → String) (v1 v2 : Param)
    (qp1 qp2 : String × List Param)
    (hq : qp1.1 = qp2.1) (hl : qp1.2.length = qp2.2.length) :
    (addFilter c cl v1 qp1).1 = (addFilter c cl v2 qp2).1
    ∧ (addFilter c cl v1 qp1).2.length = (addFilter c cl v2 qp2).2.length := by
  unfold addFilter
  cases c
  · simpa using ⟨hq, hl⟩
  · simp [hq, hl]

theorem buildFilters_congr :
    ∀ (fs1 fs2 : List (Bool × (Nat → String) × Param)) (qp1 qp2 : String × List Param),
      fs1.map (fun t => t.1) = fs2.map (fun t => t.1) →
      fs1.map (fun t => t.2.1) = fs2.map (fun t => t.2.1) →
      qp1.1 = qp2.1 → qp1.2.length = qp2.2.length →
      (buildFilters fs1 qp1).1 = (buildFilters fs2 qp2).1
      ∧ (buildFilters fs1 qp1).2.length = (buildFilters fs2 qp2).2.length
  | [], [], qp1, qp2, _, _, hq, hl => ⟨hq, hl⟩
  | [], _ :: _, _, _, hc, _, _, _ => by simp at hc
  | _ :: _, [], _, _, hc, _, _, _ => by simp at hc
  | (c1, cl1, v1) :: fs1, (c2, cl2, v2) :: fs2, qp1, qp2, hc, hcl, hq, hl => by
      simp only [List.map_cons, List.cons.injEq] at hc hcl
      obtain ⟨hc0, hcTail⟩ := hc
      obtain ⟨hcl0, hclTail⟩ := hcl
      subst hc0
      subst hcl0
      have hstep := addFilter_congr c1 cl1 v1 v2 qp1 qp2 hq hl
      exact buildFilters_congr fs1 fs2 _ _ hcTail hclTail hstep.1 hstep.2

/-- C9: for any two query specifications that differ only in filter values
(same Python-truthiness of each of the eight filters, same sort direction
and same offset positivity), the SQL text built for a tenant is identical
— filter values reach the query only through `query_params`, never through
the SQL string. -/
theorem sql_text_value_independent (r1 r2 : Request) (sb : String)
    (hcat : strTruthy r1.category = strTruthy r2.category)
    (himp : strTruthy r1.business_impact = strTruthy r2.business_impact)
    (hver : r1.verified.isSome = r2.verified.isSome)
    (heqp : strTruthy r1.equipment = strTruthy r2.equipment)
    (huf : strTruthy r1.user_filter = strTruthy r2.user_filter)
    (hts : strTruthy r1.title_search = strTruthy r2.title_search)
    (hda : strTruthy r1.date_after = strTruthy r2.date_after)
    (hdb2 : strTruthy r1.date_before = strTruthy r2.date_before)
    (hdesc : r1.sort_desc = r2.sort_desc)
    (hoff : (r1.offset > 0) = (r2.offset > 0)) :
    (buildLogsQuery r1 sb).1 = (buildLogsQuery r2 sb).1 := by
  have hmain := buildFilters_congr (filterSpecs r1) (filterSpecs r2)
    (baseQuery, ([] : List Param)) (baseQuery, ([] : List Param))
    (by simp [filterSpecs, hcat, himp, hver, heqp, huf, hts, hda, hdb2])
    (by simp [filterSpecs]) rfl rfl
  simp only [buildLogsQuery]
  by_cases ho : r1.offset > 0
  · have ho2 : r2.offset > 0 := hoff ▸ ho
    rw [if_pos ho, if_pos ho2]
    simp [hmain.1, hmain.2, hdesc]
  · have ho2 : ¬r2.offset > 0 := hoff ▸ ho
    rw [if_neg ho, if_neg ho2]
    simp [hmain.1, hmain.2, hdesc]

/-- Witness for C9: two concrete specifications with the same filters
present but different category, title and date values build the same SQL
text. -/
theorem sql_text_value_independent_witness :
    (buildLogsQuery
      { group_id := none, category := some "electrical", business_impact := none,
        verified := some true, equipment := none, user_filter := none,
        title_search := some "pump", date_after := some "2024-01-01",
        date_before := none, limit := 50, offset := 0,
        sort_by := "created_at", sort_desc := true } "created_at").1 =
    (buildLogsQuery
      { group_id := none, category := some "mechanical", business_impact := none,
        verified := some false, equipment := none, user_filter := none,
        title_search := some "belt", date_after := some "2023-06-30",
        date_before := none, limit := 50, offset := 0,
        sort_by := "created_at", sort_desc := true } "created_at").1 :=
  sql_text_value_independent
    { group_id := none, category := some "electrical", business_impact := none,
      verified := some true, equipment := none, user_filter := none,
      title_search := some "pump", date_after := some "2024-01-01",
      date_before := none, limit := 50, offset := 0,
      sort_by := "created_at", sort_desc := true }
    { group_id := none, category := some "mechanical", business_impact := none,
      verified := some false, equipment := none, user_filter := none,
      title_search := some "belt", date_after := some "2023-06-30",
      date_before := none, limit := 50, offset := 0,
      sort_by := "created_at", sort_desc := true }
    "created_at" rfl rfl rfl rfl rfl rfl rfl rfl rfl rfl

/-! ### Order-theoretic facts about the Python sort comparison -/

theorem charListLe_refl : ∀ xs : List Char, charListLe xs xs = true
  | [] => rfl
  | x :: xs => by
      unfold charListLe
      rw [if_pos rfl]
      exact charListLe_refl xs

theorem charListLe_total : ∀ xs ys : List Char, (charListLe xs ys || charListLe ys xs) = true
  | [], ys => by simp [charListLe]
  | x :: xs, [] => by simp [charListLe]
  | x :: xs, y :: ys => by
      unfold charListLe
      by_cases h : x = y
      · subst h
        rw [if_pos rfl, if_pos rfl]
        exact charListLe_total xs ys
      · have h2 : ¬y = x := fun e => h e.symm
        rw [if_neg h, if_neg h2]
        rcases lt_trichotomy x y with hlt | heq | hgt
        · simp [hlt]
        · exact absurd heq h
        · simp [hgt]

theorem charListLe_trans : ∀ xs ys zs : List Char,
    charListLe xs ys = true → charListLe ys zs = true → charListLe xs zs = true
  | [], _, zs, _, _ => by simp [charListLe]
  | x :: xs, [], _, h1, _ => by simp [charListLe] at h1
  | _ :: _, _ :: _, [], _, h2 => by simp [charListLe] at h2
  | x :: xs, y :: ys, z :: zs, h1, h2 => by
      unfold charListLe at h1 h2 ⊢
      by_cases hxy : x = y
      · subst hxy
        rw [if_pos rfl] at h1
        by_cases hyz : x = z
        · subst hyz
          rw [if_pos rfl] at h2
          rw [if_pos rfl]
          exact charListLe_trans xs ys zs h1 h2
        · rw [if_neg hyz] at h2
          rw [if_neg hyz]
          exact h2
      · rw [if_neg hxy] at h1
        have hxy2 : x < y := of_decide_eq_true h1
        by_cases hyz : y = z
        · subst hyz
          rw [if_neg hxy]
          exact h1
        · rw [if_neg hyz] at h2
          have hyz2 : y < z := of_decide_eq_true h2
          have hxz : x < z := lt_trans hxy2 hyz2
          rw [if_neg (ne_of_lt hxz)]
          simp [hxz]

theorem sortRel_total (field : String) (desc : Bool) (a b : LogRec) :
    sortRel field desc a b ∨ sortRel field desc b a := by
  unfold sortRel sortLe
  cases desc
  · simpa using Bool.or_eq_true_iff.mp
      (charListLe_total (keyStr field a).data (keyStr field b).data)
  · simpa [Or.comm] using Bool.or_eq_true_iff.mp
      (charListLe_total (keyStr field a).data (keyStr field b).data)

theorem sortRel_trans (field : String) (desc : Bool) (a b c : LogRec)
    (h1 : sortRel field desc a b) (h2 : sortRel field desc b c) :
    sortRel field desc a c := by
  unfold sortRel sortLe at h1 h2 ⊢
  cases desc
  · exact charListLe_trans _ _ _ h1 h2
  · exact charListLe_trans _ _ _ h2 h1

theorem sortRel_of_eq_keys (field : String) (desc : Bool) (a b : LogRec)
    (h : keyStr field a = keyStr field b) : sortRel field desc a b := by
  unfold sortRel sortLe pyStrLe
  rw [h]
  cases desc <;> simp [charListLe_refl]

/-! ### Facts about the merge sort step -/

theorem getattrKey_isSome_of_ne (l : LogRec) (field : String)
    (hf : field ≠ "problem_category") : getattrKey l field ≠ none := by
  unfold getattrKey
  split_ifs with h1 h2 h3 h4 h5
  · simp
  · simp
  · simp
  · simp
  · exact absurd (by simpa using h5) hf
  · simp

theorem pySort_ok_of_ne (field : String) (desc : Bool) (logs : List LogRec)
    (hf : field ≠ "problem_category") :
    pySort field desc logs = Except.ok (logs.insertionSort (sortRel field desc)) := by
  unfold pySort
  rw [if_neg]
  rintro ⟨-, l, -, hnone⟩
  exact getattrKey_isSome_of_ne l field hf hnone

theorem pySort_ok_elim (field : String) (desc : Bool) (logs : List LogRec)
    (m : List LogRec) (h : pySort field desc logs = Except.ok m) :
    m = logs.insertionSort (sortRel field desc) := by
  unfold pySort at h
  split at h
  · exact absurd h (by simp)
  · simpa using h.symm

theorem pySort_nil (field : String) (desc : Bool) :
    pySort field desc [] = Except.ok [] := by
  unfold pySort
  rw [if_neg]
  · rfl
  · rintro ⟨h, -⟩
    simp at h

theorem normalizeSort_idem (s : String) :
    normalizeSort (normalizeSort s) = normalizeSort s := by
  unfold normalizeSort
  by_cases h : valid_sort_fields.contains s = true
  · rw [if_pos h, if_pos h]
  · rw [if_neg h]
    rw [if_pos (by decide)]

theorem normalizeSort_ne_pc (s : String) (hs : s ≠ "problem_category") :
    normalizeSort s ≠ "problem_category" := by
  unfold normalizeSort
  split
  · exact hs
  · decide

theorem normalizeSort_of_valid (s : String)
    (h : valid_sort_fields.contains s = true) : normalizeSort s = s := by
  unfold normalizeSort
  rw [if_pos h]

/-! ### Characterization of the fan-out loop -/

theorem step_char (env : Env) (r : Request) (st : LoopSt) (g : Group)
    (hinv : st.sortBy = r.sort_by ∨ st.sortBy = normalizeSort r.sort_by) :
    (step env r st g).logs =
      st.logs ++ (tenantRows env r g).map (fun row => format_log_entry row g.name g.id)
    ∧ (step env r st g).cats = st.cats ++ (tenantRows env r g).filterMap truthyCategory
    ∧ ((step env r st g).sortBy = r.sort_by ∨ (step env r st g).sortBy = normalizeSort r.sort_by)
    ∧ ∃ extra, (step env r st g).dbg = st.dbg ++ extra
        ∧ ("Processing group " ++ g.id ++ " (" ++ g.name ++ ")") ∈ extra := by
  have hns : normalizeSort st.sortBy = normalizeSort r.sort_by := by
    rcases hinv with h | h
    · rw [h]
    · rw [h, normalizeSort_idem]
  unfold step tenantRows tenantQuery
  cases hc : get_group_database_connection env.store g.id with
  | none =>
      exact ⟨by simp, by simp, by simpa using hinv,
        ["Processing group " ++ g.id ++ " (" ++ g.name ++ ")",
         "Group " ++ g.id ++ " has no database configuration"],
        by simp, by simp⟩
  | some conn =>
      cases hacq : env.acquire g.id with
      | false =>
          exact ⟨by simp, by simp, by simpa using hinv,
            ["Processing group " ++ g.id ++ " (" ++ g.name ++ ")",
             "Group " ++ g.id ++ " has database configuration, querying logs"],
            by simp, by simp⟩
      | true =>
          simp only [if_true, hns]
          cases hrun : env.run g.id (buildLogsQuery r (normalizeSort r.sort_by)) with
          | ok rows =>
              exact ⟨by simp, by simp, Or.inr (by simp),
                ["Processing group " ++ g.id ++ " (" ++ g.name ++ ")",
                 "Group " ++ g.id ++ " has database configuration, querying logs",
                 "Query returned " ++ toString rows.length ++ " logs from group " ++ g.id],
                by simp, by simp⟩
          | error e =>
              exact ⟨by simp, by simp, Or.inr (by simp),
                ["Processing group " ++ g.id ++ " (" ++ g.name ++ ")",
                 "Group " ++ g.id ++ " has database configuration, querying logs"],
                by simp, by simp⟩

theorem foldl_char (env : Env) (r : Request) :
    ∀ (gs : List Group) (st : LoopSt),
      (st.sortBy = r.sort_by ∨ st.sortBy = normalizeSort r.sort_by) →
      (gs.foldl (step env r) st).logs = st.logs ++ accumRef env r gs
      ∧ (gs.foldl (step env r) st).cats =
          st.cats ++ gs.flatMap (fun g => (tenantRows env r g).filterMap truthyCategory)
      ∧ ((gs.foldl (step env r) st).sortBy = r.sort_by
         ∨ (gs.foldl (step env r) st).sortBy = normalizeSort r.sort_by)
      ∧ ∃ extra, (gs.foldl (step env r) st).dbg = st.dbg ++ extra
  | [], st, hinv => ⟨by simp [accumRef], by simp, hinv, [], by simp⟩
  | g :: gs, st, hinv => by
      obtain ⟨hl, hcats, hsb, extra1, hdbg, -⟩ := step_char env r st g hinv
      obtain ⟨hl2, hc2, hs2, extra2, hd2⟩ := foldl_char env r gs (step env r st g) hsb
      refine ⟨?_, ?_, hs2, extra1 ++ extra2, ?_⟩
      · rw [List.foldl_cons, hl2, hl]
        simp [accumRef, List.append_assoc]
      · rw [List.foldl_cons, hc2, hcats]
        simp [List.append_assoc]
      · rw [List.foldl_cons, hd2, hdbg]
        simp [List.append_assoc]

theorem processing_mem (env : Env) (r : Request) :
    ∀ (gs : List Group) (st : LoopSt) (g : Group), g ∈ gs →
      (st.sortBy = r.sort_by ∨ st.sortBy = normalizeSort r.sort_by) →
      ("Processing group " ++ g.id ++ " (" ++ g.name ++ ")") ∈ (gs.foldl (step env r) st).dbg
  | [], _, _, hmem, _ => by simp at hmem
  | g0 :: gs, st, g, hmem, hinv => by
      obtain ⟨-, -, hsb, extra1, hdbg, hp⟩ := step_char env r st g0 hinv
      rcases List.mem_cons.mp hmem with hg | hg
      · subst hg
        obtain ⟨-, -, -, extra2, hd2⟩ := foldl_char env r gs (step env r st g) hsb
        rw [List.foldl_cons, hd2, hdbg]
        exact List.mem_append_left _ (List.mem_append_right _ hp)
      · rw [List.foldl_cons]
        exact processing_mem env r gs (step env r st g0) g hg hsb

/-! ### From the loop to the merged list and the response envelope -/

theorem runTenants_logs (env : Env) (u : User) (r : Request) :
    (runTenants env u r).logs = accumRef env r (requestedGroups env u r) := by
  have h := (foldl_char env r (requestedGroups env u r)
    { logs := [], cats := [], dbg := initDebug u r (requestedGroups env u r),
      sortBy := r.sort_by } (Or.inl rfl)).1
  simpa using h

theorem runTenants_sortBy (env : Env) (u : User) (r : Request) :
    (runTenants env u r).sortBy = r.sort_by
    ∨ (runTenants env u r).sortBy = normalizeSort r.sort_by :=
  (foldl_char env r (requestedGroups env u r)
    { logs := [], cats := [], dbg := initDebug u r (requestedGroups env u r),
      sortBy := r.sort_by } (Or.inl rfl)).2.2.1

theorem runTenants_processing_mem (env : Env) (u : User) (r : Request)
    (g : Group) (hg : g ∈ requestedGroups env u r) :
    ("Processing group " ++ g.id ++ " (" ++ g.name ++ ")") ∈ (runTenants env u r).dbg :=
  processing_mem env r (requestedGroups env u r) _ g hg (Or.inl rfl)

theorem mergedLogs_ok_of_sortfield (env : Env) (u : User) (r : Request)
    (hsf : r.sort_by ≠ "problem_category") :
    mergedLogs env u r = Except.ok (mergedOk env u r) := by
  have hfield : (runTenants env u r).sortBy ≠ "problem_category" := by
    rcases runTenants_sortBy env u r with h | h
    · rw [h]; exact hsf
    · rw [h]; exact normalizeSort_ne_pc _ hsf
  unfold mergedOk mergedLogs
  by_cases hm : multiGroup env u r = true
  · rw [if_pos hm, pySort_ok_of_ne _ _ _ hfield]
  · rw [if_neg hm]

theorem mergedOk_eq_of_ok (env : Env) (u : User) (r : Request) (m : List LogRec)
    (h : mergedLogs env u r = Except.ok m) : mergedOk env u r = m := by
  unfold mergedOk
  rw [h]

theorem mergedLogs_ok_perm (env : Env) (u : User) (r : Request) (m : List LogRec)
    (h : mergedLogs env u r = Except.ok m) : m.Perm (runTenants env u r).logs := by
  unfold mergedLogs at h
  by_cases hm : multiGroup env u r = true
  · rw [if_pos hm] at h
    rw [pySort_ok_elim _ _ _ _ h]
    exact List.perm_insertionSort _ _
  · rw [if_neg hm] at h
    simp only [Except.ok.injEq] at h
    rw [← h]

theorem get_logs_ok_char (env : Env) (u : User) (r : Request) (m : List LogRec)
    (hm : mergedLogs env u r = Except.ok m) :
    get_logs env u r = Except.ok
      { logs := if m.length > r.limit then m.take r.limit else m,
        total := m.length,
        has_more := decide (m.length > r.limit),
        categories := sortedDedup (runTenants env u r).cats,
        debug_info := (runTenants env u r).dbg } := by
  unfold get_logs
  simp only [hm]

theorem slice_eq_take {α : Type} (m : List α) (n : Nat) :
    (if m.length > n then m.take n else m) = m.take n := by
  by_cases h : m.length > n
  · rw [if_pos h]
  · rw [if_neg h]
    exact (List.take_of_length_le (le_of_not_lt h)).symm

/-! ### Claim C2 — pagination of the merged set -/

/-- C2 counterexample: with `limit = 1`, `offset = 1` and two tenants whose
per-tenant queries return one row each, the merged, re-sorted accumulation
is `[recC2a, recC2b]`; re-applying the global limit/offset window would
return `[recC2b]` (drop 1, take 1), but `get_logs` returns `[recC2a]`: the
final truncation applies only the limit and never re-applies the offset. -/
theorem pagination_offset_counterexample :
    mergedLogs envC2 adminC reqC2 = Except.ok [recC2a, recC2b]
    ∧ (get_logs envC2 adminC reqC2).toOption.map
        (fun res => (res.logs, res.total, res.has_more)) = some ([recC2a], 2, true)
    ∧ (([recC2a, recC2b].drop reqC2.offset).take reqC2.limit = [recC2b])
    ∧ recC2b ≠ recC2a :=
  ⟨rfl, rfl, rfl, by decide⟩

/-- C2 (amended): the final result window re-applies only the global
`limit` over the merged, re-sorted accumulation (the `offset` was applied
per tenant and is not re-applied after the merge); the reported total
equals the size of the accumulated set before that truncation, and
`has_more` holds exactly when the total exceeds the limit. -/
theorem pagination_window (env : Env) (u : User) (r : Request)
    (res : LogsListResponse) (h : get_logs env u r = Except.ok res) :
    mergedLogs env u r = Except.ok (mergedOk env u r)
    ∧ res.logs = (mergedOk env u r).take r.limit
    ∧ res.total = (mergedOk env u r).length
    ∧ res.total = (accumRef env r (requestedGroups env u r)).length
    ∧ (res.has_more = true ↔ r.limit < res.total) := by
  cases hm : mergedLogs env u r with
  | error e =>
      unfold get_logs at h
      simp only [hm] at h
      exact absurd h (by simp)
  | ok m =>
      have hmo := mergedOk_eq_of_ok env u r m hm
      have hchar := get_logs_ok_char env u r m hm
      rw [h] at hchar
      simp only [Except.ok.injEq] at hchar
      have hlen : m.length = (accumRef env r (requestedGroups env u r)).length := by
        rw [← runTenants_logs env u r]
        exact (mergedLogs_ok_perm env u r m hm).length_eq
      refine ⟨show Except.ok m = Except.ok (mergedOk env u r) by rw [hmo], ?_, ?_, ?_, ?_⟩
      · rw [hchar, hmo]
        exact slice_eq_take m r.limit
      · rw [hchar, hmo]
      · rw [hchar]
        exact hlen
      · rw [hchar]
        simp

/-- Witness for C2 (amended): 12 records spread 5/5/2 over three tenants
with `limit = 5` — the window facts hold, and concretely the response has
5 records, total 12 and `has_more = true`. -/
theorem pagination_window_witness :
    (mergedLogs envP adminC reqP = Except.ok (mergedOk envP adminC reqP)
     ∧ (respOf envP adminC reqP).logs = (mergedOk envP adminC reqP).take reqP.limit
     ∧ (respOf envP adminC reqP).total = (mergedOk envP adminC reqP).length
     ∧ (respOf envP adminC reqP).total =
         (accumRef envP reqP (requestedGroups envP adminC reqP)).length
     ∧ ((respOf envP adminC reqP).has_more = true ↔ reqP.limit < (respOf envP adminC reqP).total))
    ∧ (respOf envP adminC reqP).logs.length = 5
    ∧ (respOf envP adminC reqP).total = 12
    ∧ (respOf envP adminC reqP).has_more = true :=
  ⟨pagination_window envP adminC reqP (respOf envP adminC reqP) (by rfl),
   by rfl, by rfl, by rfl⟩

/-! ### Claim C1 — per-tenant failure isolation -/

/-- C1 counterexample: three resolved tenants, `g1` unreachable, `g2` and
`g3` each fetching one row, `limit = 1`.  The call succeeds and isolates
the failure, but the result contains only one of the two rows fetched from
the surviving tenants — the global limit truncation drops `g3`'s row — so
"returns a result containing all rows fetched from the remaining N−1
tenants" fails as stated. -/
theorem isolation_truncation_counterexample :
    (get_logs envC1 adminC reqC1).toOption.map
      (fun res => (res.logs, res.total, res.has_more)) = some ([recC1a], 2, true)
    ∧ tenantRows envC1 reqC1 (mkGroup "g3" "Gamma") = [mkRow 2 "2024-01-01"]
    ∧ recC1b = format_log_entry (mkRow 2 "2024-01-01") "Gamma" "g3"
    ∧ recC1b ∉ [recC1a] :=
  ⟨rfl, rfl, rfl, by decide⟩

/-- C1 (amended): when one resolved tenant's connection acquisition or
query execution fails (and the sort field is not `problem_category`, whose
`None` keys can make the merge itself raise), `get_logs` returns a
well-formed result without raising; the failed tenant contributes no rows;
every row fetched from the other tenants appears in the merged
accumulation, and in the returned page itself whenever the accumulated
total fits the global limit (rows beyond the limit are truncated, as
documented by the pagination claim); the debug trace names the failed
tenant via its progress entries, though no entry records the error itself
(the error message goes only to the server log). -/
theorem failure_isolation (env : Env) (u : User) (r : Request) (t : Group)
    (hsf : r.sort_by ≠ "problem_category")
    (ht : t ∈ requestedGroups env u r)
    (htdb : get_group_database_connection env.store t.id ≠ none)
    (htfail : env.acquire t.id = false
      ∨ ∃ e, env.run t.id (tenantQuery r) = Except.error e) :
    get_logs env u r = Except.ok (respOf env u r)
    ∧ ("Processing group " ++ t.id ++ " (" ++ t.name ++ ")") ∈ (respOf env u r).debug_info
    ∧ tenantRows env r t = []
    ∧ (∀ g ∈ requestedGroups env u r, ∀ row ∈ tenantRows env r g,
        format_log_entry row g.name g.id ∈ mergedOk env u r)
    ∧ (respOf env u r).logs = (mergedOk env u r).take r.limit
    ∧ ((mergedOk env u r).length ≤ r.limit →
        ∀ g ∈ requestedGroups env u r, ∀ row ∈ tenantRows env r g,
          format_log_entry row g.name g.id ∈ (respOf env u r).logs) := by
  have hmok := mergedLogs_ok_of_sortfield env u r hsf
  have hchar := get_logs_ok_char env u r _ hmok
  have hresp : respOf env u r =
      { logs := if (mergedOk env u r).length > r.limit
                then (mergedOk env u r).take r.limit else mergedOk env u r,
        total := (mergedOk env u r).length,
        has_more := decide ((mergedOk env u r).length > r.limit),
        categories := sortedDedup (runTenants env u r).cats,
        debug_info := (runTenants env u r).dbg } := by
    unfold respOf
    rw [hchar]
  have hmem : ∀ g ∈ requestedGroups env u r, ∀ row ∈ tenantRows env r g,
      format_log_entry row g.name g.id ∈ mergedOk env u r := by
    intro g hg row hrow
    have hperm := mergedLogs_ok_perm env u r _ hmok
    rw [hperm.mem_iff, runTenants_logs]
    exact List.mem_flatMap.mpr ⟨g, hg, List.mem_map.mpr ⟨row, hrow, rfl⟩⟩
  refine ⟨by rw [hresp]; exact hchar, ?_, ?_, hmem, ?_, ?_⟩
  · rw [hresp]
    exact runTenants_processing_mem env u r t ht
  · unfold tenantRows
    cases hc : get_group_database_connection env.store t.id with
    | none => rfl
    | some conn =>
        cases hacq : env.acquire t.id with
        | false => simp
        | true =>
            rcases htfail with hf | ⟨e, he⟩
            · rw [hacq] at hf
              exact absurd hf (by simp)
            · simp [he]
  · rw [hresp]
    exact slice_eq_take _ _
  · intro hle g hg row hrow
    rw [hresp]
    simp only [slice_eq_take]
    rw [List.take_of_length_le hle]
    exact hmem g hg row hrow

/-- Witness for C1 (amended): the environment `envC1`, whose tenant `g1`
fails at connection acquisition while `g2` and `g3` answer. -/
theorem failure_isolation_witness :
    get_logs envC1 adminC reqC1 = Except.ok (respOf envC1 adminC reqC1)
    ∧ ("Processing group g1 (Alpha)") ∈ (respOf envC1 adminC reqC1).debug_info
    ∧ tenantRows envC1 reqC1 (mkGroup "g1" "Alpha") = []
    ∧ (∀ g ∈ requestedGroups envC1 adminC reqC1, ∀ row ∈ tenantRows envC1 reqC1 g,
        format_log_entry row g.name g.id ∈ mergedOk envC1 adminC reqC1)
    ∧ (respOf envC1 adminC reqC1).logs = (mergedOk envC1 adminC reqC1).take reqC1.limit
    ∧ ((mergedOk envC1 adminC reqC1).length ≤ reqC1.limit →
        ∀ g ∈ requestedGroups envC1 adminC reqC1, ∀ row ∈ tenantRows envC1 reqC1 g,
          format_log_entry row g.name g.id ∈ (respOf envC1 adminC reqC1).logs) :=
  failure_isolation envC1 adminC reqC1 (mkGroup "g1" "Alpha")
    (by decide) (by decide) (by decide) (Or.inl (by rfl))

/-! ### Claim C3 — merge order and tie-breaking -/

/-- C3 counterexample: two tenants iterated in store order `g2`, `g1`,
each returning one row with identical `created_at` keys.  The merged
result keeps accumulation order `[("g2", 1), ("g1", 2)]`: the sort key is
only `getattr(x, sort_by, "")`, so equal-key records are NOT reordered by
tenant ID and row ID (that would give `[("g1", 2), ("g2", 1)]`, since
`"g1" < "g2"` lexicographically). -/
theorem merge_tiebreak_counterexample :
    (get_logs envC3 adminC reqC3).toOption.map
      (fun res => res.logs.map (fun l => (l.source_group_id, l.id))) =
      some [("g2", 1), ("g1", 2)]
    ∧ keyStr "created_at" (format_log_entry (mkRow 1 "2024-01-01") "Beta" "g2") =
        keyStr "created_at" (format_log_entry (mkRow 2 "2024-01-01") "Alpha" "g1")
    ∧ pyStrLe "g1" "g2" = true
    ∧ ("g1" : String) ≠ "g2"
    ∧ [(("g2" : String), (1 : Int)), ("g1", 2)] ≠ [(("g1" : String), (2 : Int)), ("g2", 1)] :=
  ⟨rfl, rfl, rfl, by decide, by decide⟩

/-- C3 (amended): when more than one resolved tenant exists (the source's
re-sort condition) and the requested sort field is allow-listed, the
merged list is sorted by that field in the requested direction, and any
two records with equal sort keys keep their accumulation order (the sort
is stable) — they are NOT re-ordered by tenant ID and row ID.  The merge
is deterministic for identical inputs since the model is a pure
function. -/
theorem merge_stable_sorted (env : Env) (u : User) (r : Request)
    (res : LogsListResponse) (h : get_logs env u r = Except.ok res)
    (hvalid : valid_sort_fields.contains r.sort_by = true)
    (hmulti : multiGroup env u r = true) :
    List.Pairwise (sortRel r.sort_by r.sort_desc) (mergedOk env u r)
    ∧ res.logs = (mergedOk env u r).take r.limit
    ∧ ∀ a b : LogRec, keyStr r.sort_by a = keyStr r.sort_by b →
        [a, b].Sublist (runTenants env u r).logs →
        [a, b].Sublist (mergedOk env u r) := by
  cases hm : mergedLogs env u r with
  | error e =>
      unfold get_logs at h
      simp only [hm] at h
      exact absurd h (by simp)
  | ok m =>
      have hmo := mergedOk_eq_of_ok env u r m hm
      have hfb : (runTenants env u r).sortBy = r.sort_by := by
        rcases runTenants_sortBy env u r with hh | hh
        · exact hh
        · rw [hh, normalizeSort_of_valid _ hvalid]
      have hms : m = (runTenants env u r).logs.insertionSort (sortRel r.sort_by r.sort_desc) := by
        unfold mergedLogs at hm
        rw [if_pos hmulti] at hm
        have h2 := pySort_ok_elim _ _ _ _ hm
        rw [hfb] at h2
        exact h2
      haveI : IsTotal LogRec (sortRel r.sort_by r.sort_desc) :=
        ⟨sortRel_total r.sort_by r.sort_desc⟩
      haveI : IsTrans LogRec (sortRel r.sort_by r.sort_desc) :=
        ⟨sortRel_trans r.sort_by r.sort_desc⟩
      have hchar := get_logs_ok_char env u r m hm
      rw [h] at hchar
      simp only [Except.ok.injEq] at hchar
      refine ⟨?_, ?_, ?_⟩
      · rw [hmo, hms]
        exact List.sorted_insertionSort _ _
      · rw [hchar, hmo]
        exact slice_eq_take m r.limit
      · intro a b hkey hsub
        rw [hmo, hms]
        exact List.pair_sublist_insertionSort
          (sortRel_of_eq_keys r.sort_by r.sort_desc a b hkey) hsub

/-- Witness for C3 (amended) on `envC3`: two tenants with equal sort keys. -/
theorem merge_stable_sorted_witness :
    List.Pairwise (sortRel reqC3.sort_by reqC3.sort_desc) (mergedOk envC3 adminC reqC3)
    ∧ (respOf envC3 adminC reqC3).logs = (mergedOk envC3 adminC reqC3).take reqC3.limit
    ∧ ∀ a b : LogRec, keyStr reqC3.sort_by a = keyStr reqC3.sort_by b →
        [a, b].Sublist (runTenants envC3 adminC reqC3).logs →
        [a, b].Sublist (mergedOk envC3 adminC reqC3) :=
  merge_stable_sorted envC3 adminC reqC3 (respOf envC3 adminC reqC3)
    (by rfl) (by decide) (by decide)

/-! ### Claim C10 — invalid sort fields fall back to created_at -/

theorem foldl_sort_fallback (env : Env) (r1 r2 : Request)
    (hbq : ∀ sb, buildLogsQuery r1 sb = buildLogsQuery r2 sb)
    (hbad : valid_sort_fields.contains r1.sort_by = false) :
    ∀ (gs : List Group) (st1 st2 : LoopSt),
      st1.logs = st2.logs → st1.cats = st2.cats → st1.dbg = st2.dbg →
      st2.sortBy = "created_at" →
      (st1.sortBy = "created_at" ∨ (st1.sortBy = r1.sort_by ∧ st1.logs = [])) →
      (gs.foldl (step env r1) st1).logs = (gs.foldl (step env r2) st2).logs
      ∧ (gs.foldl (step env r1) st1).cats = (gs.foldl (step env r2) st2).cats
      ∧ (gs.foldl (step env r1) st1).dbg = (gs.foldl (step env r2) st2).dbg
      ∧ (gs.foldl (step env r2) st2).sortBy = "created_at"
      ∧ ((gs.foldl (step env r1) st1).sortBy = "created_at"
         ∨ ((gs.foldl (step env r1) st1).sortBy = r1.sort_by
            ∧ (gs.foldl (step env r1) st1).logs = []))
  | [], st1, st2, h1, h2, h3, h4, h5 => ⟨h1, h2, h3, h4, h5⟩
  | g :: gs, st1, st2, h1, h2, h3, h4, h5 => by
      have hnorm1 : normalizeSort st1.sortBy = "created_at" := by
        rcases h5 with h | ⟨h, -⟩
        · rw [h]
          exact normalizeSort_of_valid _ (by decide)
        · rw [h]
          unfold normalizeSort
          rw [if_neg (show ¬(valid_sort_fields.contains r1.sort_by = true) by
            rw [hbad]; exact Bool.false_ne_true)]
      have hnorm2 : normalizeSort st2.sortBy = "created_at" := by
        rw [h4]
        exact normalizeSort_of_valid _ (by decide)
      have hstep : (step env r1 st1 g).logs = (step env r2 st2 g).logs
          ∧ (step env r1 st1 g).cats = (step env r2 st2 g).cats
          ∧ (step env r1 st1 g).dbg = (step env r2 st2 g).dbg
          ∧ (step env r2 st2 g).sortBy = "created_at"
          ∧ ((step env r1 st1 g).sortBy = "created_at"
             ∨ ((step env r1 st1 g).sortBy = r1.sort_by ∧ (step env r1 st1 g).logs = [])) := by
        unfold step
        cases hc : get_group_database_connection env.store g.id with
        | none =>
            exact ⟨by simp [h1], by simp [h2], by simp [h3], by simpa using h4,
              by simpa [h1] using h5⟩
        | some conn =>
            cases hacq : env.acquire g.id with
            | false =>
                exact ⟨by simp [h1], by simp [h2], by simp [h3], by simpa using h4,
                  by simpa [h1] using h5⟩
            | true =>
                simp only [if_true, hnorm1, hnorm2, ← hbq]
                cases hrun : env.run g.id (buildLogsQuery r1 "created_at") with
                | ok rows =>
                    exact ⟨by simp [h1], by simp [h2], by simp [h3], by simp,
                      Or.inl (by simp)⟩
                | error e =>
                    exact ⟨by simp [h1], by simp [h2], by simp [h3], by simp,
                      Or.inl (by simp)⟩
      rw [List.foldl_cons, List.foldl_cons]
      exact foldl_sort_fallback env r1 r2 hbq hbad gs _ _
        hstep.1 hstep.2.1 hstep.2.2.1 hstep.2.2.2.1 hstep.2.2.2.2

/-- C10: a `sort_by` value outside the allow-list is not rejected and does
not raise; the response is identical to the one for `sort_by =
"created_at"` — the in-loop normalization runs before every tenant query
is built and before the final merge can observe a nonempty accumulation. -/
theorem invalid_sort_fallback (env : Env) (u : User) (r : Request)
    (hbad : valid_sort_fields.contains r.sort_by = false) :
    get_logs env u r = get_logs env u { r with sort_by := "created_at" } := by
  have hbq : ∀ sb, buildLogsQuery r sb = buildLogsQuery { r with sort_by := "created_at" } sb :=
    fun _ => rfl
  have hP := foldl_sort_fallback env r { r with sort_by := "created_at" } hbq hbad
    (requestedGroups env u r)
    { logs := [], cats := [], dbg := initDebug u r (requestedGroups env u r),
      sortBy := r.sort_by }
    { logs := [], cats := [], dbg := initDebug u r (requestedGroups env u r),
      sortBy := "created_at" }
    rfl rfl rfl rfl (Or.inr ⟨rfl, rfl⟩)
  obtain ⟨hlogs, hcats, hdbg, hsb2, hsb1⟩ := hP
  have e1 : runTenants env u r = (requestedGroups env u r).foldl (step env r)
      { logs := [], cats := [], dbg := initDebug u r (requestedGroups env u r),
        sortBy := r.sort_by } := rfl
  have e2 : runTenants env u { r with sort_by := "created_at" } =
      (requestedGroups env u r).foldl (step env { r with sort_by := "created_at" })
      { logs := [], cats := [], dbg := initDebug u r (requestedGroups env u r),
        sortBy := "created_at" } := rfl
  have hmerged : mergedLogs env u r = mergedLogs env u { r with sort_by := "created_at" } := by
    show (if multiGroup env u r then
            pySort (runTenants env u r).sortBy r.sort_desc (runTenants env u r).logs
          else Except.ok (runTenants env u r).logs) =
         (if multiGroup env u { r with sort_by := "created_at" } then
            pySort (runTenants env u { r with sort_by := "created_at" }).sortBy
              ({ r with sort_by := "created_at" } : Request).sort_desc
              (runTenants env u { r with sort_by := "created_at" }).logs
          else Except.ok (runTenants env u { r with sort_by := "created_at" }).logs)
    have hmg : multiGroup env u { r with sort_by := "created_at" } = multiGroup env u r := rfl
    have hdesc : ({ r with sort_by := "created_at" } : Request).sort_desc = r.sort_desc := rfl
    have hlogs2 : (runTenants env u { r with sort_by := "created_at" }).logs =
        (runTenants env u r).logs := by
      rw [e1, e2]
      exact hlogs.symm
    have hf2 : (runTenants env u { r with sort_by := "created_at" }).sortBy = "created_at" := by
      rw [e2]
      exact hsb2
    rw [hmg, hdesc, hlogs2, hf2]
    by_cases hmulti : multiGroup env u r = true
    · rw [if_pos hmulti, if_pos hmulti]
      rcases hsb1 with hf1 | ⟨hf1, hempty⟩
      · rw [← e1] at hf1
        rw [hf1]
      · rw [← e1] at hf1 hempty
        rw [hempty, pySort_nil, pySort_nil]
    · rw [if_neg hmulti, if_neg hmulti]
  have hcats2 : (runTenants env u { r with sort_by := "created_at" }).cats =
      (runTenants env u r).cats := by
    rw [e1, e2]
    exact hcats.symm
  have hdbg2 : (runTenants env u { r with sort_by := "created_at" }).dbg =
      (runTenants env u r).dbg := by
    rw [e1, e2]
    exact hdbg.symm
  have hlim : ({ r with sort_by := "created_at" } : Request).limit = r.limit := rfl
  unfold get_logs
  rw [← hmerged]
  cases hm : mergedLogs env u r with
  | error e => simp only [hm]
  | ok m =>
      simp only [hm]
      rw [hcats2, hdbg2, hlim]

/-- Witness for C10: the two-tenant environment `envC2` with the invalid
sort field `"bogus"` behaves exactly as with `"created_at"`. -/
theorem invalid_sort_fallback_witness :
    get_logs envC2 adminC (mkReq 50 0 "bogus" true) =
      get_logs envC2 adminC { mkReq 50 0 "bogus" true with sort_by := "created_at" } :=
  invalid_sort_fallback envC2 adminC (mkReq 50 0 "bogus" true) (by decide)

end FedLogs
